import Mathlib

/-!
Verification development for the synk.ai backend (main.py and schemas.py):
a shallow embedding of the video job pipeline runner, of the job store
operations it performs, and of the HTTP handlers for upload, job lookup and
waitlist signup, together with theorems about the job state machine.
-/

/-- One document of the videojob collection: the fields of the pydantic model
VideoJob (schemas.py lines 49-66) together with the job_id key added by
upload_video (main.py line 91) and the updated_at field first written by the
runner updates (main.py lines 63 and 67).  updated_at stays none until a
runner update writes it; time is modelled as an abstract counter advancing
by one at each write attempt of a run. -/
structure JobDoc where
  email : Option String
  filename : String
  size_bytes : Nat
  status : String
  progress : Nat
  steps : List String
  current_step : Option String
  render_url : Option String
  error : Option String
  job_id : String
  updated_at : Option Nat
  deriving Repr, DecidableEq

/-- find_one filtered by job_id: the first document of the collection whose
job_id field matches (pymongo find_one scans in natural order). -/
def findOne : List JobDoc → String → Option JobDoc
  | [], _ => none
  | d :: rest, jid => if d.job_id = jid then some d else findOne rest jid

/-- update_one filtered by job_id with a set of field assignments f: applies f
to the first matching document and, with no match, modifies nothing (pymongo
update_one touches at most one document and is a no-op on zero matches).
The per-step write of main.py line 63 first resolves the target by find_one
on job_id and then updates by its primary key, which on a single matching
document is the same first-match update. -/
def updateOne : List JobDoc → String → (JobDoc → JobDoc) → List JobDoc
  | [], _, _ => []
  | d :: rest, jid, f =>
      if d.job_id = jid then f d :: rest else d :: updateOne rest jid f

/-- Modelled from the spec: create_document (database.py, a repository module
not present under src/) persists one new document into a collection and
returns its store assigned identifier; the Job Store supports create, point
lookup and partial field update.  Creation is modelled as appending to the
collection list and returning an opaque identifier string. -/
def create_document (coll : List α) (doc : α) : List α × String :=
  (coll ++ [doc], "inserted-object-id")

/-- The step table of fake_ai_processing (main.py lines 54-61): step name and
cumulative progress target. -/
def pipelineSteps : List (String × Nat) :=
  [("analyze_content", 15), ("detect_cuts", 30), ("auto_captions", 45),
   ("select_music", 60), ("insert_b_roll", 80), ("color_and_export", 100)]

/-- Default value of the steps field of VideoJob (schemas.py lines 56-63). -/
def videoJobDefaultSteps : List String :=
  ["analyze_content", "detect_cuts", "auto_captions", "select_music",
   "insert_b_roll", "color_and_export"]

/-- The per-step write of main.py line 63: sets status, current_step, progress
and updated_at. -/
def stepUpdate (step : String) (prog : Nat) (now : Nat) (d : JobDoc) : JobDoc :=
  { d with status := "processing", current_step := some step, progress := prog,
           updated_at := some now }

/-- The completion write of main.py line 67: sets status, render_url and
updated_at; render_url is the dummy locator built on line 66. -/
def completeUpdate (jid : String) (now : Nat) (d : JobDoc) : JobDoc :=
  { d with status := "completed",
           render_url := some ("/api/demo/render/" ++ jid ++ ".mp4"),
           updated_at := some now }

/-- The failure write of main.py line 69: sets status and error only; it does
not write updated_at. -/
def failUpdate (msg : String) (d : JobDoc) : JobDoc :=
  { d with status := "failed", error := some msg }

/-- One database write that the try block of fake_ai_processing attempts. -/
inductive DbWrite where
  | step (name : String) (prog : Nat)
  | complete
  deriving Repr, DecidableEq

/-- Fault model for one run of the pipeline: when faultAt is some i, the write
attempt with index i raises a persistence error described by faultMsg before
any change is applied (a store write either fully applies or raises); when
handlerFaults is true, the write inside the except handler itself raises. -/
structure FaultSpec where
  faultAt : Option Nat
  faultMsg : String
  handlerFaults : Bool

/-- Description of the TypeError raised at main.py line 63 when find_one
returns None and the subscript by the primary key field is taken (the Python
message quotes the word NoneType). -/
def noneTypeErrMsg : String := "NoneType object is not subscriptable"

/-- The sequence of writes the try block attempts: the six step writes of the
for loop (main.py lines 62-64) followed by the completion write (line 67).
The sleep between writes changes no store state and is not modelled. -/
def runWrites : List DbWrite :=
  (pipelineSteps.map fun p => DbWrite.step p.1 p.2) ++ [DbWrite.complete]

/-- Executes the write attempts of the try block from attempt index i onward.
Returns the store states after each applied write, paired with none on
success or with the description of the exception that ended the block.  A
step write re-resolves the document by find_one (main.py line 63) and raises
a TypeError when it is absent; the completion write filters by job_id
directly and silently matches nothing when the document is absent. -/
def runTry (jid : String) (fault : Option Nat) (msg : String) :
    Nat → List DbWrite → List JobDoc → List (List JobDoc) × Option String
  | _, [], _ => ([], none)
  | i, DbWrite.step name prog :: rest, s =>
      if fault = some i then ([], some msg)
      else
        match findOne s jid with
        | none => ([], some noneTypeErrMsg)
        | some _ =>
            let s2 := updateOne s jid (stepUpdate name prog i)
            let r := runTry jid fault msg (i + 1) rest s2
            (s2 :: r.1, r.2)
  | i, DbWrite.complete :: rest, s =>
      if fault = some i then ([], some msg)
      else
        let s2 := updateOne s jid (completeUpdate jid i)
        let r := runTry jid fault msg (i + 1) rest s2
        (s2 :: r.1, r.2)

/-- fake_ai_processing (main.py lines 50-69) as a state trace: the store before
the run followed by the store after each applied write.  On an exception the
except handler applies the failure write (line 69) to the store as the try
block left it, unless the handler write itself raises, in which case the
exception escapes into the background task machinery with no further store
change. -/
def fake_ai_processing (jid : String) (fs : FaultSpec) (s : List JobDoc) :
    List (List JobDoc) :=
  let r := runTry jid fs.faultAt fs.faultMsg 0 runWrites s
  match r.2 with
  | none => s :: r.1
  | some msg =>
      if fs.handlerFaults then s :: r.1
      else s :: r.1 ++ [updateOne (r.1.getLastD s) jid (failUpdate msg)]

/-- The VideoJob document created by upload_video (main.py lines 81-91): the
explicit constructor arguments, the pydantic defaults of schemas.py lines
49-66 for the remaining fields, and the job_id key added on line 91.  The
storedFilename argument stands for the name built on line 76 by prefixing
the fresh identifier to the original filename. -/
def initialJobDoc (email : Option String) (storedFilename : String)
    (sizeBytes : Nat) (jid : String) : JobDoc :=
  { email := email, filename := storedFilename, size_bytes := sizeBytes,
    status := "queued", progress := 0, steps := videoJobDefaultSteps,
    current_step := some "analyze_content", render_url := none, error := none,
    job_id := jid, updated_at := none }

/-- upload_video (main.py lines 72-97): jid stands for the fresh uuid4 string
and size for the byte length of the stored file.  The document is created in
the videojob collection and the response carries ok together with the job
identifier; scheduling the background task mutates no store state at
request time. -/
def upload_video (store : List JobDoc) (jid : String) (origFilename : String)
    (email : Option String) (size : Nat) : List JobDoc × String :=
  let doc := initialJobDoc email (jid ++ "_" ++ origFilename) size jid
  ((create_document store doc).1, jid)

/-- An HTTP error response: status code and detail, as carried by a fastapi
HTTPException. -/
structure HTTPError where
  status_code : Nat
  detail : String
  deriving Repr, DecidableEq

/-- str(e) of a fastapi HTTPException (a starlette HTTPException), whose string
conversion renders the status code, a colon and a space, then the detail. -/
def httpExceptionStr (e : HTTPError) : String :=
  toString e.status_code ++ ": " ++ e.detail

/-- get_job (main.py lines 100-109).  The try block raises
HTTPException(404, "Job not found") when find_one returns nothing; since
HTTPException subclasses Exception, the blanket except clause on line 108
catches that very exception and re-raises HTTPException(500, str(e)).  On
success the record is returned (the stringification of the primary key on
line 106 is not modelled, the key being outside the document model). -/
def get_job (store : List JobDoc) (jid : String) : Except HTTPError JobDoc :=
  let tryBody : Except HTTPError JobDoc :=
    match findOne store jid with
    | none => Except.error { status_code := 404, detail := "Job not found" }
    | some d => Except.ok d
  match tryBody with
  | Except.ok d => Except.ok d
  | Except.error e =>
      Except.error { status_code := 500, detail := httpExceptionStr e }

/-- The request body model of the waitlist endpoint, WaitlistPayload (main.py
lines 24-27): email is declared as a plain str, name and source as optional
strings with source defaulting to "marketing".  The EmailStr constraint of
WaitlistUser (schemas.py lines 43-47) is never applied by the endpoint. -/
structure WaitlistPayload where
  email : String
  name : Option String
  source : Option String
  deriving Repr, DecidableEq

/-- Necessary condition for a string to pass the pydantic EmailStr validation
that schemas.py declares for WaitlistUser: every address EmailStr accepts
contains an at sign.  Used only to exhibit a malformed email. -/
def emailStrNecessaryCond (s : String) : Bool := s.data.contains '@'

/-- Pydantic validation of the waitlist request body against WaitlistPayload:
the email field only has to be a string, so validation of any string email
succeeds; an absent source takes the default "marketing". -/
def validate_waitlist_body (email : String) (name : Option String)
    (source : Option String) : Except String WaitlistPayload :=
  Except.ok { email := email, name := name,
              source := some (source.getD "marketing") }

/-- waitlist_signup handler body (main.py lines 35-41): the already validated
payload is persisted verbatim into the waitlistuser collection via
create_document and the response carries ok with the new identifier. -/
def waitlist_signup (store : List WaitlistPayload) (p : WaitlistPayload) :
    List WaitlistPayload × String :=
  create_document store p

/-- POST /api/waitlist end to end: body validation against WaitlistPayload,
then the handler waitlist_signup.  No store write happens when validation
fails. -/
def post_waitlist (store : List WaitlistPayload) (email : String)
    (name : Option String) (source : Option String) :
    List WaitlistPayload × Except String String :=
  match validate_waitlist_body email name source with
  | Except.error e => (store, Except.error e)
  | Except.ok p =>
      let r := waitlist_signup store p
      (r.1, Except.ok r.2)

/-- The document states a fault-free run writes, in order: the created
document, the six per-step states, then the completed state. -/
def expectedRunDocs (email : Option String) (fn : String) (sz : Nat)
    (jid : String) : List JobDoc :=
  [ initialJobDoc email fn sz jid,
    { initialJobDoc email fn sz jid with
        status := "processing", current_step := some "analyze_content",
        progress := 15, updated_at := some 0 },
    { initialJobDoc email fn sz jid with
        status := "processing", current_step := some "detect_cuts",
        progress := 30, updated_at := some 1 },
    { initialJobDoc email fn sz jid with
        status := "processing", current_step := some "auto_captions",
        progress := 45, updated_at := some 2 },
    { initialJobDoc email fn sz jid with
        status := "processing", current_step := some "select_music",
        progress := 60, updated_at := some 3 },
    { initialJobDoc email fn sz jid with
        status := "processing", current_step := some "insert_b_roll",
        progress := 80, updated_at := some 4 },
    { initialJobDoc email fn sz jid with
        status := "processing", current_step := some "color_and_export",
        progress := 100, updated_at := some 5 },
    { initialJobDoc email fn sz jid with
        status := "completed", current_step := some "color_and_export",
        progress := 100,
        render_url := some ("/api/demo/render/" ++ jid ++ ".mp4"),
        updated_at := some 6 } ]

/-- Closed form of the trace of one run on a store holding exactly the freshly
created document: all writes up to a fault apply, and a fault (necessarily
at an attempt index below 7, later indices never being reached) is followed
by the failure write unless the handler itself faults. -/
def expectedTrace (email : Option String) (fn : String) (sz : Nat)
    (jid : String) (fs : FaultSpec) : List (List JobDoc) :=
  match fs.faultAt with
  | none => (expectedRunDocs email fn sz jid).map (fun d => [d])
  | some k =>
      if k < 7 then
        let base := ((expectedRunDocs email fn sz jid).take (k + 1)).map
          (fun d => [d])
        if fs.handlerFaults then base
        else base ++ [[failUpdate fs.faultMsg
          ((expectedRunDocs email fn sz jid).getD k
            (initialJobDoc email fn sz jid))]]
      else (expectedRunDocs email fn sz jid).map (fun d => [d])

theorem runTrace_eq (email : Option String) (fn : String) (sz : Nat)
    (jid : String) (fs : FaultSpec) :
    fake_ai_processing jid fs [initialJobDoc email fn sz jid] =
      expectedTrace email fn sz jid fs := by
  obtain ⟨fa, msg, hf⟩ := fs
  match fa with
  | none =>
      cases hf <;>
      simp [fake_ai_processing, runTry, runWrites, pipelineSteps, findOne,
        updateOne, stepUpdate, completeUpdate, initialJobDoc, expectedTrace,
        expectedRunDocs]
  | some k =>
      by_cases hk : k < 7
      · interval_cases k <;> cases hf <;>
          simp [fake_ai_processing, runTry, runWrites, pipelineSteps, findOne,
            updateOne, stepUpdate, completeUpdate, failUpdate, initialJobDoc,
            expectedTrace, expectedRunDocs, List.getD]
      · have h0 : k ≠ 0 := by omega
        have h1 : k ≠ 1 := by omega
        have h2 : k ≠ 2 := by omega
        have h3 : k ≠ 3 := by omega
        have h4 : k ≠ 4 := by omega
        have h5 : k ≠ 5 := by omega
        have h6 : k ≠ 6 := by omega
        cases hf <;>
        simp [fake_ai_processing, runTry, runWrites, pipelineSteps, findOne,
          updateOne, stepUpdate, completeUpdate, initialJobDoc, expectedTrace,
          expectedRunDocs, hk, h0, h1, h2, h3, h4, h5, h6]

/-- Shape of every run on a store holding exactly the freshly created
document: the trace applies the first m + 1 expected states (m at most 7)
and, when the try block was ended by a fault (so m below 7), possibly one
final failure write on the last applied state. -/
theorem trace_shape (email : Option String) (fn : String) (sz : Nat)
    (jid : String) (fs : FaultSpec) :
    ∃ m, m ≤ 7 ∧
      (fake_ai_processing jid fs [initialJobDoc email fn sz jid] =
          ((expectedRunDocs email fn sz jid).take (m + 1)).map (fun d => [d]) ∨
        (m < 7 ∧
          fake_ai_processing jid fs [initialJobDoc email fn sz jid] =
            ((expectedRunDocs email fn sz jid).take (m + 1)).map
                (fun d => [d]) ++
              [[failUpdate fs.faultMsg
                ((expectedRunDocs email fn sz jid).getD m
                  (initialJobDoc email fn sz jid))]])) := by
  rw [runTrace_eq]
  obtain ⟨fa, msg, hf⟩ := fs
  match fa with
  | none =>
      exact ⟨7, by omega, Or.inl (by simp [expectedTrace, expectedRunDocs])⟩
  | some k =>
      by_cases hk : k < 7
      · cases hf
        · exact ⟨k, by omega, Or.inr ⟨hk, by simp [expectedTrace, hk]⟩⟩
        · exact ⟨k, by omega, Or.inl (by simp [expectedTrace, hk])⟩
      · exact ⟨7, by omega,
          Or.inl (by simp [expectedTrace, hk, expectedRunDocs])⟩

theorem expectedRunDocs_getD_mem_take (email : Option String) (fn : String)
    (sz : Nat) (jid : String) (m : Nat) (hm : m < 7) :
    (expectedRunDocs email fn sz jid).getD m (initialJobDoc email fn sz jid) ∈
      (expectedRunDocs email fn sz jid).take 7 := by
  interval_cases m <;> simp [expectedRunDocs, List.getD]

/-- Every state of a run on a store holding exactly the freshly created
document is either the whole-store image of one of the expected run states,
or the failure write applied to one of the first seven of them. -/
theorem mem_run_cases (email : Option String) (fn : String) (sz : Nat)
    (jid : String) (fs : FaultSpec) (s : List JobDoc)
    (hs : s ∈ fake_ai_processing jid fs [initialJobDoc email fn sz jid]) :
    (∃ d ∈ expectedRunDocs email fn sz jid, s = [d]) ∨
      (∃ d ∈ (expectedRunDocs email fn sz jid).take 7,
        s = [failUpdate fs.faultMsg d]) := by
  obtain ⟨m, hm, hshape | ⟨hm7, hshape⟩⟩ := trace_shape email fn sz jid fs
  · rw [hshape] at hs
    obtain ⟨d, hd, rfl⟩ := List.mem_map.mp hs
    exact Or.inl ⟨d, List.mem_of_mem_take hd, rfl⟩
  · rw [hshape] at hs
    rcases List.mem_append.mp hs with h | h
    · obtain ⟨d, hd, rfl⟩ := List.mem_map.mp h
      exact Or.inl ⟨d, List.mem_of_mem_take hd, rfl⟩
    · have hs2 : s = [failUpdate fs.faultMsg
          ((expectedRunDocs email fn sz jid).getD m
            (initialJobDoc email fn sz jid))] := by simpa using h
      exact Or.inr ⟨(expectedRunDocs email fn sz jid).getD m
        (initialJobDoc email fn sz jid),
        expectedRunDocs_getD_mem_take email fn sz jid m hm7, hs2⟩

/-- The job identifier and the steps field of every expected run state. -/
theorem expectedRunDocs_fields (email : Option String) (fn : String) (sz : Nat)
    (jid : String) :
    ∀ d ∈ expectedRunDocs email fn sz jid,
      d.job_id = jid ∧ d.steps = videoJobDefaultSteps := by
  intro d hd
  simp [expectedRunDocs, initialJobDoc] at hd
  rcases hd with rfl | rfl | rfl | rfl | rfl | rfl | rfl | rfl <;> exact ⟨rfl, rfl⟩

/-- Status, progress, render and error facts of every expected run state. -/
theorem expectedRunDocs_status_facts (email : Option String) (fn : String)
    (sz : Nat) (jid : String) :
    ∀ d ∈ expectedRunDocs email fn sz jid,
      (d.status = "queued" ∨ d.status = "processing" ∨
        d.status = "completed") ∧
      (d.status = "completed" → d.progress = 100 ∧ d.render_url ≠ none ∧
        d.error = none) ∧
      (d.status = "queued" → d.progress = 0) ∧
      ((d.status = "queued" ∨ d.status = "processing") →
        d.render_url = none ∧ d.error = none) := by
  intro d hd
  simp [expectedRunDocs, initialJobDoc] at hd
  rcases hd with rfl | rfl | rfl | rfl | rfl | rfl | rfl | rfl <;> simp +decide

/-- The first seven expected run states are non-terminal and carry neither a
render reference nor an error. -/
theorem expectedRunDocs_take7_facts (email : Option String) (fn : String)
    (sz : Nat) (jid : String) :
    ∀ d ∈ (expectedRunDocs email fn sz jid).take 7,
      (d.status = "queued" ∨ d.status = "processing") ∧
      d.render_url = none ∧ d.error = none := by
  intro d hd
  simp [expectedRunDocs, initialJobDoc] at hd
  rcases hd with rfl | rfl | rfl | rfl | rfl | rfl | rfl <;> simp +decide

theorem updateOne_of_findOne_none (s : List JobDoc) (jid : String)
    (f : JobDoc → JobDoc) (h : findOne s jid = none) :
    updateOne s jid f = s := by
  induction s with
  | nil => rfl
  | cons d rest ih =>
      by_cases hd : d.job_id = jid
      · simp [findOne, hd] at h
      · simp only [findOne, hd, if_false, if_neg hd] at h
        simp [updateOne, hd, ih h]

theorem findOne_append_self (s : List JobDoc) (d : JobDoc) (jid : String)
    (h : findOne s jid = none) (hd : d.job_id = jid) :
    findOne (s ++ [d]) jid = some d := by
  induction s with
  | nil => simp [findOne, hd]
  | cons e rest ih =>
      by_cases he : e.job_id = jid
      · simp [findOne, he] at h
      · simp only [findOne, he, if_neg he] at h
        simpa [findOne, he] using ih h

theorem findOne_append_other (s : List JobDoc) (d : JobDoc) (jid : String)
    (hd : d.job_id ≠ jid) :
    findOne (s ++ [d]) jid = findOne s jid := by
  induction s with
  | nil => simp [findOne, hd]
  | cons e rest ih =>
      by_cases he : e.job_id = jid
      · simp [findOne, he]
      · simpa [findOne, he] using ih

/-- C1: in a run of the pipeline runner on a job in which no write raises, the
runner executes exactly the six steps analyze_content, detect_cuts,
auto_captions, select_music, insert_b_roll, color_and_export in that order;
the write persisted for each step sets status to processing, current_step to
the step name, progress to the cumulative targets 15, 30, 45, 60, 80, 100,
and updated_at to the time of the write; after the final step a further
write sets status to completed, attaches the render reference and a fresh
updated_at. -/
theorem run_executes_six_steps_then_completes (email : Option String)
    (fn : String) (sz : Nat) (jid : String) (msg : String) (hf : Bool) :
    fake_ai_processing jid ⟨none, msg, hf⟩ [initialJobDoc email fn sz jid] =
      (expectedRunDocs email fn sz jid).map (fun d => [d]) := by
  have h := runTrace_eq email fn sz jid ⟨none, msg, hf⟩
  simpa [expectedTrace] using h

/-- C2: looking up a job identifier that has no record does not answer the 404
with detail Job not found that the claim states: the HTTPException(404)
raised inside the try block is itself an Exception, so the blanket except
clause of get_job catches it and the endpoint answers 500 with the
stringified exception as detail. -/
theorem get_job_missing_is_500 :
    get_job [] "no-such-job" =
      Except.error { status_code := 500, detail := "404: Job not found" } := rfl

/-- C4: a malformed email is not rejected by the waitlist endpoint: the request
model WaitlistPayload declares email as a plain string, so validation passes
and the handler persists the entry; this run stores a waitlist record whose
email lacks even an at sign, which no email validation would accept. -/
theorem malformed_email_is_persisted :
    post_waitlist [] "not-an-email" none none =
      ([{ email := "not-an-email", name := none, source := some "marketing" }],
        Except.ok "inserted-object-id") ∧
    emailStrNecessaryCond "not-an-email" = false :=
  ⟨rfl, by decide⟩

/-- C7: creating a job through upload under a fresh identifier, with any email,
filename and size, and reading the record back at once yields a record with
status queued, progress 0 and current_step analyze_content, the first step
name. -/
theorem upload_then_get_roundtrip (store : List JobDoc) (jid orig : String)
    (email : Option String) (sz : Nat) (hfresh : findOne store jid = none) :
    (upload_video store jid orig email sz).2 = jid ∧
    get_job (upload_video store jid orig email sz).1 jid =
      Except.ok (initialJobDoc email (jid ++ "_" ++ orig) sz jid) ∧
    (initialJobDoc email (jid ++ "_" ++ orig) sz jid).status = "queued" ∧
    (initialJobDoc email (jid ++ "_" ++ orig) sz jid).progress = 0 ∧
    (initialJobDoc email (jid ++ "_" ++ orig) sz jid).current_step =
      some "analyze_content" := by
  refine ⟨rfl, ?_, rfl, rfl, rfl⟩
  have hfind : findOne (store ++ [initialJobDoc email (jid ++ "_" ++ orig) sz jid])
      jid = some (initialJobDoc email (jid ++ "_" ++ orig) sz jid) :=
    findOne_append_self store _ jid hfresh rfl
  simp [upload_video, create_document, get_job, hfind]

/-- Witness for C7 at a concrete input. -/
theorem upload_then_get_roundtrip_witness :
    findOne [] "j1" = none ∧
    ((upload_video [] "j1" "clip.mp4" (some "a@b.com") 1024).2 = "j1" ∧
     get_job (upload_video [] "j1" "clip.mp4" (some "a@b.com") 1024).1 "j1" =
       Except.ok (initialJobDoc (some "a@b.com") ("j1" ++ "_" ++ "clip.mp4")
         1024 "j1") ∧
     (initialJobDoc (some "a@b.com") ("j1" ++ "_" ++ "clip.mp4") 1024
         "j1").status = "queued" ∧
     (initialJobDoc (some "a@b.com") ("j1" ++ "_" ++ "clip.mp4") 1024
         "j1").progress = 0 ∧
     (initialJobDoc (some "a@b.com") ("j1" ++ "_" ++ "clip.mp4") 1024
         "j1").current_step = some "analyze_content") :=
  ⟨rfl, upload_then_get_roundtrip [] "j1" "clip.mp4" (some "a@b.com") 1024 rfl⟩

/-- C9: a run on a job identifier that has no record leaves the collection
exactly as it was: the first step write raises on the None returned by
find_one, the except handler write matches no document, and every state of
the trace equals the initial store, so nothing is created and no error trace
is recorded anywhere. -/
theorem missing_job_run_unchanged (jid : String) (fs : FaultSpec)
    (store : List JobDoc) (hmiss : findOne store jid = none)
    (s : List JobDoc) (hs : s ∈ fake_ai_processing jid fs store) :
    s = store := by
  have hupd : ∀ g, updateOne store jid g = store := fun g =>
    updateOne_of_findOne_none store jid g hmiss
  by_cases h0 : fs.faultAt = some 0
  · rcases hhf : fs.handlerFaults with _ | _ <;>
      simp [fake_ai_processing, runTry, runWrites, pipelineSteps, h0, hhf,
        hupd] at hs <;> tauto
  · rcases hhf : fs.handlerFaults with _ | _ <;>
      simp [fake_ai_processing, runTry, runWrites, pipelineSteps, h0, hmiss,
        hhf, hupd] at hs <;> tauto

/-- Witness for C9 at a concrete input. -/
theorem missing_job_run_unchanged_witness :
    findOne [] "ghost" = none ∧
    ([] : List JobDoc) ∈
      fake_ai_processing "ghost" ⟨none, "m", false⟩ [] ∧
    ([] : List JobDoc) = [] :=
  ⟨rfl, by decide,
    missing_job_run_unchanged "ghost" ⟨none, "m", false⟩ [] rfl [] (by decide)⟩

/-- C3 counterexample: when the very first step write raises, the failure write
leaves updated_at untouched: the whole run writes the failure state and
nothing more, and the terminal record reads status failed, error boom and
updated_at none, although the claim states that updated_at is set to the
time of the failure. -/
theorem failure_write_leaves_updated_at_unset :
    fake_ai_processing "j" ⟨some 0, "boom", false⟩
        [initialJobDoc none "j_clip.mp4" 1024 "j"] =
      [[initialJobDoc none "j_clip.mp4" 1024 "j"],
       [{ initialJobDoc none "j_clip.mp4" 1024 "j" with
           status := "failed", error := some "boom" }]] ∧
    ({ initialJobDoc none "j_clip.mp4" 1024 "j" with
        status := "failed", error := some "boom" } : JobDoc).updated_at =
      none :=
  ⟨by decide, rfl⟩

/-- C3 amended: if the write of step k raises during a run (and the failure
write itself persists), the runner performs the failure write and stops: the
trace is the k applied states followed by one terminal state equal to the
last pre-failure state with only status set to failed and the failure
description recorded in error; previously written progress fields are not
rolled back, no step is re-attempted, and updated_at keeps whatever value it
had before the failure. -/
theorem failed_run_records_error_and_stops (email : Option String)
    (fn : String) (sz : Nat) (jid msg : String) (k : Nat) (hk : k < 7) :
    fake_ai_processing jid ⟨some k, msg, false⟩
        [initialJobDoc email fn sz jid] =
      ((expectedRunDocs email fn sz jid).take (k + 1)).map (fun d => [d]) ++
        [[failUpdate msg ((expectedRunDocs email fn sz jid).getD k
          (initialJobDoc email fn sz jid))]] := by
  have h := runTrace_eq email fn sz jid ⟨some k, msg, false⟩
  simpa [expectedTrace, hk] using h

/-- Witness for C3 at a concrete input. -/
theorem failed_run_records_error_and_stops_witness :
    2 < 7 ∧
    fake_ai_processing "j" ⟨some 2, "boom", false⟩
        [initialJobDoc none "f" 1 "j"] =
      ((expectedRunDocs none "f" 1 "j").take 3).map (fun d => [d]) ++
        [[failUpdate "boom" ((expectedRunDocs none "f" 1 "j").getD 2
          (initialJobDoc none "f" 1 "j"))]] :=
  ⟨by decide, failed_run_records_error_and_stops none "f" 1 "j" "boom" 2
    (by decide)⟩

/-- C5 counterexample: in a fault-free run the sixth step write already sets
progress to 100 while status is still processing: this store state is
observable in the trace and refutes the claim that no processing state ever
has progress 100. -/
theorem processing_state_with_full_progress :
    [{ initialJobDoc none "f" 1 "j" with
        status := "processing", current_step := some "color_and_export",
        progress := 100, updated_at := some 5 }] ∈
      fake_ai_processing "j" ⟨none, "m", false⟩
        [initialJobDoc none "f" 1 "j"] ∧
    ({ initialJobDoc none "f" 1 "j" with
        status := "processing", current_step := some "color_and_export",
        progress := 100, updated_at := some 5 } : JobDoc).status =
      "processing" ∧
    ({ initialJobDoc none "f" 1 "j" with
        status := "processing", current_step := some "color_and_export",
        progress := 100, updated_at := some 5 } : JobDoc).progress = 100 :=
  ⟨by decide, rfl, rfl⟩

/-- C5 amended: in every observable state of a job record, a completed status
has progress 100 and a queued status has progress 0 (hence never 100);
however progress reaches 100 already at the sixth step write while status is
still processing, and stays at 100 in a failed state when the write that
raises comes after the sixth step write. -/
theorem progress_status_relation (email : Option String) (fn : String)
    (sz : Nat) (jid : String) (fs : FaultSpec) (s : List JobDoc)
    (hs : s ∈ fake_ai_processing jid fs [initialJobDoc email fn sz jid])
    (d : JobDoc) (hd : findOne s jid = some d) :
    (d.status = "completed" → d.progress = 100) ∧
    (d.status = "queued" → d.progress = 0) := by
  rcases mem_run_cases email fn sz jid fs s hs with
    ⟨d2, hd2, rfl⟩ | ⟨d2, hd2, rfl⟩
  · obtain ⟨hjid, -⟩ := expectedRunDocs_fields email fn sz jid d2 hd2
    have hdd : d2 = d := by simpa [findOne, hjid] using hd
    subst hdd
    obtain ⟨-, hcomp, hq, -⟩ :=
      expectedRunDocs_status_facts email fn sz jid d2 hd2
    exact ⟨fun h => (hcomp h).1, hq⟩
  · have hjid : d2.job_id = jid :=
      (expectedRunDocs_fields email fn sz jid d2 (List.mem_of_mem_take hd2)).1
    have hdd : failUpdate fs.faultMsg d2 = d := by
      simpa [findOne, failUpdate, hjid] using hd
    subst hdd
    constructor <;> intro h <;> simp [failUpdate] at h

/-- Witness for C5 at a concrete input: the freshly created store state. -/
theorem progress_status_relation_witness :
    [initialJobDoc none "f" 1 "j"] ∈
      fake_ai_processing "j" ⟨none, "m", false⟩
        [initialJobDoc none "f" 1 "j"] ∧
    findOne [initialJobDoc none "f" 1 "j"] "j" =
      some (initialJobDoc none "f" 1 "j") ∧
    (((initialJobDoc none "f" 1 "j").status = "completed" →
        (initialJobDoc none "f" 1 "j").progress = 100) ∧
      ((initialJobDoc none "f" 1 "j").status = "queued" →
        (initialJobDoc none "f" 1 "j").progress = 0)) :=
  ⟨by decide, by decide,
    progress_status_relation none "f" 1 "j" ⟨none, "m", false⟩
      [initialJobDoc none "f" 1 "j"] (by decide)
      (initialJobDoc none "f" 1 "j") (by decide)⟩

/-- C6: in every observable state of a job record, exactly one of render_url
and error is set when status is terminal (render_url on completed, error on
failed), and neither is set while status is queued or processing. -/
theorem render_error_exclusive (email : Option String) (fn : String)
    (sz : Nat) (jid : String) (fs : FaultSpec) (s : List JobDoc)
    (hs : s ∈ fake_ai_processing jid fs [initialJobDoc email fn sz jid])
    (d : JobDoc) (hd : findOne s jid = some d) :
    ((d.status = "completed" ∨ d.status = "failed") →
      ((d.render_url ≠ none ∧ d.error = none) ∨
        (d.render_url = none ∧ d.error ≠ none))) ∧
    ((d.status = "queued" ∨ d.status = "processing") →
      d.render_url = none ∧ d.error = none) := by
  rcases mem_run_cases email fn sz jid fs s hs with
    ⟨d2, hd2, rfl⟩ | ⟨d2, hd2, rfl⟩
  · obtain ⟨hjid, -⟩ := expectedRunDocs_fields email fn sz jid d2 hd2
    have hdd : d2 = d := by simpa [findOne, hjid] using hd
    subst hdd
    obtain ⟨hst, hcomp, -, hnonterm⟩ :=
      expectedRunDocs_status_facts email fn sz jid d2 hd2
    refine ⟨?_, hnonterm⟩
    rintro (hc | hc)
    · obtain ⟨-, hr, he⟩ := hcomp hc
      exact Or.inl ⟨hr, he⟩
    · rcases hst with h | h | h <;> rw [h] at hc <;> simp at hc
  · have hjid : d2.job_id = jid :=
      (expectedRunDocs_fields email fn sz jid d2 (List.mem_of_mem_take hd2)).1
    obtain ⟨hnt, hr, he⟩ := expectedRunDocs_take7_facts email fn sz jid d2 hd2
    have hdd : failUpdate fs.faultMsg d2 = d := by
      simpa [findOne, failUpdate, hjid] using hd
    subst hdd
    constructor
    · intro hc
      exact Or.inr ⟨by simpa [failUpdate] using hr, by simp [failUpdate]⟩
    · rintro (hc | hc) <;> simp [failUpdate] at hc

/-- Witness for C6 at a concrete input: the freshly created store state. -/
theorem render_error_exclusive_witness :
    [initialJobDoc none "f" 1 "j"] ∈
      fake_ai_processing "j" ⟨none, "m", false⟩
        [initialJobDoc none "f" 1 "j"] ∧
    findOne [initialJobDoc none "f" 1 "j"] "j" =
      some (initialJobDoc none "f" 1 "j") ∧
    ((((initialJobDoc none "f" 1 "j").status = "completed" ∨
        (initialJobDoc none "f" 1 "j").status = "failed") →
      (((initialJobDoc none "f" 1 "j").render_url ≠ none ∧
          (initialJobDoc none "f" 1 "j").error = none) ∨
        ((initialJobDoc none "f" 1 "j").render_url = none ∧
          (initialJobDoc none "f" 1 "j").error ≠ none))) ∧
     (((initialJobDoc none "f" 1 "j").status = "queued" ∨
        (initialJobDoc none "f" 1 "j").status = "processing") →
      (initialJobDoc none "f" 1 "j").render_url = none ∧
        (initialJobDoc none "f" 1 "j").error = none)) :=
  ⟨by decide, by decide,
    render_error_exclusive none "f" 1 "j" ⟨none, "m", false⟩
      [initialJobDoc none "f" 1 "j"] (by decide)
      (initialJobDoc none "f" 1 "j") (by decide)⟩

/-- C10: every job record created by upload carries the ordered six step names
as its steps field, and no operation of the system ever changes the field:
it still reads the same in every store state of a run. -/
theorem steps_field_never_modified (email : Option String) (fn : String)
    (sz : Nat) (jid : String) (store2 : List JobDoc) (orig : String)
    (fs : FaultSpec) (s : List JobDoc)
    (hs : s ∈ fake_ai_processing jid fs [initialJobDoc email fn sz jid])
    (d : JobDoc) (hd : findOne s jid = some d) :
    (upload_video store2 jid orig email sz).1 =
      store2 ++ [initialJobDoc email (jid ++ "_" ++ orig) sz jid] ∧
    (initialJobDoc email (jid ++ "_" ++ orig) sz jid).steps =
      videoJobDefaultSteps ∧
    d.steps = videoJobDefaultSteps := by
  refine ⟨rfl, rfl, ?_⟩
  rcases mem_run_cases email fn sz jid fs s hs with
    ⟨d2, hd2, rfl⟩ | ⟨d2, hd2, rfl⟩
  · obtain ⟨hjid, hsteps⟩ := expectedRunDocs_fields email fn sz jid d2 hd2
    have hdd : d2 = d := by simpa [findOne, hjid] using hd
    subst hdd; exact hsteps
  · obtain ⟨hjid, hsteps⟩ :=
      expectedRunDocs_fields email fn sz jid d2 (List.mem_of_mem_take hd2)
    have hdd : failUpdate fs.faultMsg d2 = d := by
      simpa [findOne, failUpdate, hjid] using hd
    subst hdd
    simpa [failUpdate] using hsteps

/-- Witness for C10 at a concrete input. -/
theorem steps_field_never_modified_witness :
    [initialJobDoc none "f" 1 "j"] ∈
      fake_ai_processing "j" ⟨none, "m", false⟩
        [initialJobDoc none "f" 1 "j"] ∧
    ((upload_video [] "j" "f0" none 1).1 =
        [] ++ [initialJobDoc none ("j" ++ "_" ++ "f0") 1 "j"] ∧
      (initialJobDoc none ("j" ++ "_" ++ "f0") 1 "j").steps =
        videoJobDefaultSteps ∧
      (initialJobDoc none "f" 1 "j").steps = videoJobDefaultSteps) :=
  ⟨by decide,
    steps_field_never_modified none "f" 1 "j" [] "f0" ⟨none, "m", false⟩
      [initialJobDoc none "f" 1 "j"] (by decide)
      (initialJobDoc none "f" 1 "j") (by decide)⟩

theorem getD_map_sing (l : List JobDoc) (i : Nat) (hi : i < l.length)
    (dflt : JobDoc) :
    (l.map (fun d => [d])).getD i [] = [l.getD i dflt] := by
  rw [List.getD_eq_getElem?_getD, List.getD_eq_getElem?_getD,
    List.getElem?_map, List.getElem?_eq_getElem hi]
  rfl

theorem findOne_singleton (x : JobDoc) (jid : String) (hx : x.job_id = jid) :
    findOne [x] jid = some x := by simp [findOne, hx]

/-- In any run on the freshly created document, every state before the final
one holds a non-terminal record: terminal statuses occur only at the last
position of the trace. -/
theorem trace_nonterminal_before_last (email : Option String) (fn : String)
    (sz : Nat) (jid : String) (fs : FaultSpec) (i : Nat)
    (hi : i + 1 <
      (fake_ai_processing jid fs [initialJobDoc email fn sz jid]).length)
    (d : JobDoc)
    (hd : findOne ((fake_ai_processing jid fs
      [initialJobDoc email fn sz jid]).getD i []) jid = some d) :
    d.status ≠ "completed" ∧ d.status ≠ "failed" := by
  have hlen8 : (expectedRunDocs email fn sz jid).length = 8 := by
    simp [expectedRunDocs]
  obtain ⟨m, hm, hshape | ⟨hm7, hshape⟩⟩ := trace_shape email fn sz jid fs
  · rw [hshape] at hi hd
    have hlen : ((expectedRunDocs email fn sz jid).take (m + 1)).length =
        m + 1 := by
      rw [List.length_take, hlen8]; omega
    rw [List.length_map, hlen] at hi
    have him : i < m := by omega
    rw [getD_map_sing _ i (by rw [hlen]; omega)
      (initialJobDoc email fn sz jid)] at hd
    have htake : ((expectedRunDocs email fn sz jid).take (m + 1)).getD i
        (initialJobDoc email fn sz jid) =
        (expectedRunDocs email fn sz jid).getD i
          (initialJobDoc email fn sz jid) := by
      rw [List.getD_eq_getElem?_getD, List.getD_eq_getElem?_getD,
        List.getElem?_take]
      simp [show i < m + 1 by omega]
    rw [htake] at hd
    have hmem := expectedRunDocs_getD_mem_take email fn sz jid i (by omega)
    obtain ⟨hst, -, -⟩ := expectedRunDocs_take7_facts email fn sz jid _ hmem
    have hjid : ((expectedRunDocs email fn sz jid).getD i
        (initialJobDoc email fn sz jid)).job_id = jid :=
      (expectedRunDocs_fields email fn sz jid _
        (List.mem_of_mem_take hmem)).1
    rw [findOne_singleton _ jid hjid] at hd
    have hdd := Option.some.inj hd
    subst hdd
    rcases hst with h | h <;> rw [h] <;> exact ⟨by decide, by decide⟩
  · rw [hshape] at hi hd
    have hlen : ((expectedRunDocs email fn sz jid).take (m + 1)).length =
        m + 1 := by
      rw [List.length_take, hlen8]; omega
    rw [List.length_append, List.length_map, hlen] at hi
    simp only [List.length_cons, List.length_nil] at hi
    have him : i < m + 1 := by omega
    have hbound : i < (((expectedRunDocs email fn sz jid).take (m + 1)).map
        (fun d => [d])).length := by
      rw [List.length_map, hlen]; omega
    have happ : (((expectedRunDocs email fn sz jid).take (m + 1)).map
          (fun d => [d]) ++
        [[failUpdate fs.faultMsg ((expectedRunDocs email fn sz jid).getD m
          (initialJobDoc email fn sz jid))]]).getD i [] =
        (((expectedRunDocs email fn sz jid).take (m + 1)).map
          (fun d => [d])).getD i [] := by
      rw [List.getD_eq_getElem?_getD, List.getD_eq_getElem?_getD,
        List.getElem?_append, if_pos hbound, List.getD_eq_getElem?_getD]
    rw [happ, getD_map_sing _ i (by rw [hlen]; omega)
      (initialJobDoc email fn sz jid)] at hd
    have htake : ((expectedRunDocs email fn sz jid).take (m + 1)).getD i
        (initialJobDoc email fn sz jid) =
        (expectedRunDocs email fn sz jid).getD i
          (initialJobDoc email fn sz jid) := by
      rw [List.getD_eq_getElem?_getD, List.getD_eq_getElem?_getD,
        List.getElem?_take]
      simp [him]
    rw [htake] at hd
    have hmem := expectedRunDocs_getD_mem_take email fn sz jid i (by omega)
    obtain ⟨hst, -, -⟩ := expectedRunDocs_take7_facts email fn sz jid _ hmem
    have hjid : ((expectedRunDocs email fn sz jid).getD i
        (initialJobDoc email fn sz jid)).job_id = jid :=
      (expectedRunDocs_fields email fn sz jid _
        (List.mem_of_mem_take hmem)).1
    rw [findOne_singleton _ jid hjid] at hd
    have hdd := Option.some.inj hd
    subst hdd
    rcases hst with h | h <;> rw [h] <;> exact ⟨by decide, by decide⟩

/-- C8: completed and failed are absorbing: in the full state trace of a run, a
state holding a terminal record can only be the final state, so every later
state of the run (there is none but itself) still holds the same record
unchanged; moreover the remaining operations touch no existing record: job
lookup is a pure read and an upload under a different fresh identifier
leaves the lookup of this job unchanged. -/
theorem terminal_status_absorbing (email : Option String) (fn : String)
    (sz : Nat) (jid : String) (fs : FaultSpec) (i j : Nat) (hij : i ≤ j)
    (hj : j <
      (fake_ai_processing jid fs [initialJobDoc email fn sz jid]).length)
    (d : JobDoc)
    (hd : findOne ((fake_ai_processing jid fs
      [initialJobDoc email fn sz jid]).getD i []) jid = some d)
    (hterm : d.status = "completed" ∨ d.status = "failed")
    (store2 : List JobDoc) (jid2 orig : String) (email2 : Option String)
    (sz2 : Nat) (hne : jid2 ≠ jid) :
    findOne ((fake_ai_processing jid fs
        [initialJobDoc email fn sz jid]).getD j []) jid = some d ∧
    findOne (upload_video store2 jid2 orig email2 sz2).1 jid =
      findOne store2 jid := by
  constructor
  · by_cases hlast : i + 1 <
        (fake_ai_processing jid fs [initialJobDoc email fn sz jid]).length
    · have h := trace_nonterminal_before_last email fn sz jid fs i hlast d hd
      rcases hterm with h2 | h2
      · exact absurd h2 h.1
      · exact absurd h2 h.2
    · have hij2 : i = j := by omega
      subst hij2
      exact hd
  · exact findOne_append_other store2 _ jid hne

/-- Witness for C8 at a concrete input: the completed final state of a
fault-free run. -/
theorem terminal_status_absorbing_witness :
    (7 : Nat) ≤ 7 ∧
    7 < (fake_ai_processing "j" ⟨none, "m", false⟩
      [initialJobDoc none "f" 1 "j"]).length ∧
    findOne ((fake_ai_processing "j" ⟨none, "m", false⟩
        [initialJobDoc none "f" 1 "j"]).getD 7 []) "j" =
      some { initialJobDoc none "f" 1 "j" with
        status := "completed", current_step := some "color_and_export",
        progress := 100, render_url := some "/api/demo/render/j.mp4",
        updated_at := some 6 } ∧
    ("k" : String) ≠ "j" ∧
    (findOne ((fake_ai_processing "j" ⟨none, "m", false⟩
        [initialJobDoc none "f" 1 "j"]).getD 7 []) "j" =
      some { initialJobDoc none "f" 1 "j" with
        status := "completed", current_step := some "color_and_export",
        progress := 100, render_url := some "/api/demo/render/j.mp4",
        updated_at := some 6 } ∧
     findOne (upload_video [] "k" "o" none 0).1 "j" = findOne [] "j") :=
  ⟨by decide, by decide, by decide, by decide,
    terminal_status_absorbing none "f" 1 "j" ⟨none, "m", false⟩ 7 7
      (by decide) (by decide) _ (by decide)
      (Or.inl (by decide)) [] "k" "o" none 0 (by decide)⟩
